import Mathlib

/-!
# Verification of the MM-Kinetics enzyme-kinetics analyzer

Shallow embedding of the two Streamlit scripts of the repository:

* `MM_kinetics_app.py` — paste-columns input path: whitespace tokenization,
  length check, float conversion, nonlinear Michaelis-Menten fit via
  `scipy.optimize.curve_fit`, Lineweaver-Burk linear fit via
  `scipy.stats.linregress` over the reciprocal transform restricted by the
  mask `S != 0`, back-transform, and the two plot series.
* `streamlit_app.py` — CSV input path: same analysis block, but the
  reciprocal transform is `1 / S` with no zero-substrate mask.

Modelling conventions:

* Numbers are embedded as `ℚ` (exact arithmetic).  A float value whose
  computation divides by zero (scipy/numpy produce `inf` or `nan` there,
  without raising) is modelled as `none : Option ℚ`; any value computed
  from such a nonfinite operand is also modelled as `none` (the model does
  not track IEEE special values further, e.g. it does not distinguish the
  finite float `-1/inf = -0.0` from other values downstream of a zero
  division — no theorem below depends on such a value).
* The iterative Levenberg-Marquardt solver inside `curve_fit` is not
  reproduced: the development is parameterised by an arbitrary total
  solver function `lm : LMSolver`, and `curve_fit` models only the
  documented input validation of scipy (it raises when the number of data
  points is smaller than the number of free parameters, 2).  Every theorem
  is stated for all solver functions, or instantiated with the trivial
  solver `trivLM` in witnesses.
* Python `float(...)` parsing of a token is abstracted as a parameter
  `parse : String → Option ℚ`; theorems quantify over it, and witnesses
  instantiate it with the simple decimal-digit parser `parseNat`.
* Exceptions caught by the script are modelled with `Except`: the three
  observable failure channels of `MM_kinetics_app.py` (the length-mismatch
  message of line 72, the conversion error of line 85, and the generic
  data-fitting error of line 115) become the three constructors of
  `AppError`.
-/

/-- Python `str.split(sep)`-style splitter at whitespace characters over a
character list; produces the (possibly empty) chunks between separator
characters, mirroring how consecutive separators yield empty chunks. -/
def splitWs : List Char → List (List Char)
  | [] => [[]]
  | c :: cs =>
    if c.isWhitespace then [] :: splitWs cs
    else
      match splitWs cs with
      | [] => [[c]]
      | t :: ts => (c :: t) :: ts

/-- Chunks of a character list as strings, empties removed.  Together with
`tokens` this models line 67 of MM_kinetics_app.py:
`[val for val in s_string.split() if val]` (Python's no-argument `split`
splits on whitespace runs and discards empty tokens; the comprehension's
filter is the explicit empties removal). -/
def tokensL (cs : List Char) : List String :=
  ((splitWs cs).map (fun l => String.mk l)).filter (fun t => decide (t ≠ ""))

/-- Whitespace tokenization of a pasted column (lines 67-68 of
MM_kinetics_app.py). -/
def tokens (s : String) : List String :=
  tokensL s.toList

/-- Sequence a list of optional values: `some` of the list of contents when
every element is present, `none` as soon as one is missing.  Models
all-or-nothing numeric conversion (`astype(float)` raises on the first
non-convertible entry) and, separately, the presence of a nonfinite float
in a data series. -/
def seqOption {α : Type} : List (Option α) → Option (List α)
  | [] => some []
  | none :: _ => none
  | some a :: rest => (seqOption rest).map (fun l => a :: l)

/-- Float reciprocal `1 / q` of a finite value: `none` marks the nonfinite
result (numpy yields `inf`, not an exception) produced when `q = 0`. -/
def fRecipQ (q : ℚ) : Option ℚ :=
  if q = 0 then none else some (1 / q)

/-- Float reciprocal lifted to possibly-nonfinite operands. -/
def fRecip : Option ℚ → Option ℚ
  | none => none
  | some q => fRecipQ q

/-- Float product with nonfinite propagation. -/
def fMul : Option ℚ → Option ℚ → Option ℚ
  | some a, some b => some (a * b)
  | _, _ => none

/-- Float negation with nonfinite propagation. -/
def fNeg : Option ℚ → Option ℚ
  | some a => some (-a)
  | none => none

/-- Python builtin `max` over a numeric column: raises on an empty
sequence (line 98 of MM_kinetics_app.py runs `max(v)` inside the
try-block). -/
def pymax : List ℚ → Except String ℚ
  | [] => .error "max() arg is an empty sequence"
  | x :: xs => .ok (xs.foldl max x)

/-- Total variant of builtin `max`, used where the source calls `max` on a
series that is necessarily nonempty at that point (plot construction,
lines 144 and 168); the default value for `[]` is unreachable there. -/
def pymaxD : List ℚ → ℚ
  | [] => 0
  | x :: xs => xs.foldl max x

/-- `numpy.median`: middle element of the sorted data for odd length,
mean of the two middle elements for even length.  A sorted permutation of
a list of rationals is unique, so the choice of sorting algorithm does not
affect the value.  `np.median([])` is `nan`; that case is unreachable
after validation and is given a junk value. -/
def npMedian (l : List ℚ) : ℚ :=
  let L := l.insertionSort (· ≤ ·)
  let n := L.length
  if n % 2 = 1 then L.getD (n / 2) 0
  else (L.getD (n / 2 - 1) 0 + L.getD (n / 2) 0) / 2

/-- `numpy.linspace a b num`: `num` evenly spaced samples from `a` to `b`
inclusive (lines 144 and 168 use `num = 100`). -/
def linspace (a b : ℚ) (num : ℕ) : List ℚ :=
  (List.range num).map (fun i => a + (b - a) * i / (num - 1))

/-- The rate law of lines 93-94: `(Vmax * S) / (Km + S)`; `none` when the
float evaluation divides by zero. -/
def michaelis_menten (S Vmax Km : ℚ) : Option ℚ :=
  if Km + S = 0 then none else some ((Vmax * S) / (Km + S))

/-- Mean of a list of rationals (the value `numpy` uses inside
`linregress`). -/
def meanOf (l : List ℚ) : ℚ := l.sum / l.length

/-- Sum of squared deviations from the mean of the x-data: the quantity
`scipy.stats.linregress` tests against zero to reject all-identical
regressors. -/
def ssxmOf (l : List ℚ) : ℚ :=
  (l.map (fun x => (x - meanOf l) ^ 2)).sum

/-- Model of `scipy.stats.linregress` on the two transformed data columns
(line 108 of MM_kinetics_app.py, line 54 of streamlit_app.py).  It raises
on empty input; its identical-regressor rejection is
`np.amax(x) == np.amin(x) and len(x) > 1`, so a SINGLE data point does not
raise: there `ssxm = 0` flows into `slope = 0/0`, numpy turns that into
nan without raising, and nan slope and intercept are returned (modelled
as `(none, none)`).  On finite x-data of length at least 2 the
`amax == amin` test is equivalent to `ssxm = 0`.  When the x-data holds a
nonfinite entry, any finite entry breaks the `amax == amin` equality and
the regression completes with nan results; when every entry is nonfinite
the test compares the infinities themselves — in this program a nonfinite
x-entry is always the reciprocal `1/0 = +inf` of a zero substrate value
(zero tokens parse to `+0.0`), so all-nonfinite x-data means identical
`+inf` entries and the check raises.  The model conflates nonfinite
values, so a hand-crafted mix of `+inf` and `-inf` (substrate token
"-0") is not distinguished; no theorem below touches that case.
A nonfinite y-value makes slope and intercept nan without raising. -/
def linregress (xs ys : List (Option ℚ)) : Except String (Option ℚ × Option ℚ) :=
  if xs.length = 0 then .error "Inputs must not be empty."
  else
    match seqOption xs with
    | none =>
      if xs.all (fun a => a.isNone) ∧ 1 < xs.length then
        .error "Cannot calculate a linear regression if all x values are identical"
      else .ok (none, none)
    | some xs' =>
      if ssxmOf xs' = 0 then
        if 1 < xs.length then
          .error "Cannot calculate a linear regression if all x values are identical"
        else .ok (none, none)
      else
        match seqOption ys with
        | none => .ok (none, none)
        | some ys' =>
          let slope := ((xs'.zip ys').map
            (fun p => (p.1 - meanOf xs') * (p.2 - meanOf ys'))).sum / ssxmOf xs'
          .ok (some slope, some (meanOf ys' - slope * meanOf xs'))

/-- Lines 111-113 of MM_kinetics_app.py (identically lines 57-59 of
streamlit_app.py): `Vmax_lb = 1 / intercept`, `Km_lb = slope * Vmax_lb`,
`x_intercept_val = -1 / Km_lb`, returned in that order. -/
def backTransform (slope intercept : Option ℚ) : Option ℚ × Option ℚ × Option ℚ :=
  let Vmax_lb := fRecip intercept
  let Km_lb := fMul slope Vmax_lb
  (Vmax_lb, Km_lb, fNeg (fRecip Km_lb))

/-- Result of the linear (Lineweaver-Burk) branch: regression outcome,
back-transformed parameters and the fitted-line plot series of lines
168-169. -/
structure LinFit where
  slope : Option ℚ
  intercept : Option ℚ
  Vmax_lb : Option ℚ
  Km_lb : Option ℚ
  x_intercept_val : Option ℚ
  x_fit : Option (List ℚ)
  y_fit : Option (List ℚ)
deriving DecidableEq

/-- Builtin `max` over a float series that may hold nonfinite entries:
nonfinite when the series is empty (raises) or contains a nonfinite
value. -/
def fMaxOf (l : List (Option ℚ)) : Option ℚ :=
  match seqOption l with
  | some (x :: xs) => some (xs.foldl max x)
  | _ => none

/-- The linear branch shared by both scripts, applied to the already
reciprocal-transformed series: regression, back-transform, and the
Lineweaver-Burk line samples
`x_fit = linspace(min(0, x_intercept_val * 1.1), max(inv_S) * 1.1, 100)`,
`y_fit = slope * x_fit + intercept`. -/
def linearCore (inv_S inv_v : List (Option ℚ)) : Except String LinFit :=
  match linregress inv_S inv_v with
  | .error e => .error e
  | .ok r =>
    let bt := backTransform r.1 r.2
    let x_fit :=
      match bt.2.2, fMaxOf inv_S with
      | some xi, some mx => some (linspace (min 0 (xi * (11 / 10))) (mx * (11 / 10)) 100)
      | _, _ => none
    let y_fit :=
      match r.1, r.2, x_fit with
      | some sl, some ic, some xs => some (xs.map (fun x => sl * x + ic))
      | _, _, _ => none
    .ok ⟨r.1, r.2, bt.1, bt.2.1, bt.2.2, x_fit, y_fit⟩

/-- Type of the abstract nonlinear least-squares solver inside
`scipy.optimize.curve_fit`: from the data columns and the initial guess to
the fitted `(Vmax, Km)`. -/
def LMSolver : Type := List ℚ → List ℚ → ℚ × ℚ → ℚ × ℚ

/-- Model of `scipy.optimize.curve_fit` (line 99): the documented input
validation raises when the number of data points is smaller than the
number of free parameters (2); otherwise the iterative solver runs,
abstracted by the parameter `lm`. -/
def curve_fit (lm : LMSolver) (S v : List ℚ) (p0 : ℚ × ℚ) : Except String (ℚ × ℚ) :=
  if S.length < 2 then
    .error "The number of func parameters=2 must not exceed the number of data points"
  else .ok (lm S v p0)

/-- Line 98: `initial_guesses = [max(v), np.median(S)]` — maximum observed
velocity first, median observed substrate concentration second. -/
def initial_guesses (S v : List ℚ) : Except String (ℚ × ℚ) :=
  match pymax v with
  | .error e => .error e
  | .ok m => .ok (m, npMedian S)

/-- Line 104: the rows kept by `non_zero_mask = S != 0`, as (S, v) pairs.
The strict disequality of the source is modelled by decidable strict
disequality on `ℚ` — no tolerance. -/
def maskPairs (S v : List ℚ) : List (ℚ × ℚ) :=
  (S.zip v).filter (fun p => decide (p.1 ≠ 0))

/-- Line 105: `inv_S = 1 / S[non_zero_mask]`. -/
def inv_S (S v : List ℚ) : List (Option ℚ) :=
  (maskPairs S v).map (fun p => fRecipQ p.1)

/-- Line 106: `inv_v = 1 / v[non_zero_mask]` (velocities are not masked on
their own zeros; a zero velocity yields a nonfinite reciprocal). -/
def inv_v (S v : List ℚ) : List (Option ℚ) :=
  (maskPairs S v).map (fun p => fRecipQ p.2)

/-- The result bundle of one analysis: nonlinear estimates, the
Michaelis-Menten plot series of lines 144-145, and the linear branch. -/
structure Bundle where
  Vmax_fit : ℚ
  Km_fit : ℚ
  S_fit : List ℚ
  v_fit : List (Option ℚ)
  lin : LinFit
deriving DecidableEq

/-- The try-block of lines 96-117 of MM_kinetics_app.py, together with the
plot-series computations it feeds (lines 144-145 and 168-169): nonlinear
fit from the initial guesses, masked reciprocal transform, linear
regression, back-transform.  Any exception inside the block is surfaced as
a single generic error (the model of `st.error("Error during data
fitting: ...")` + `st.stop()`). -/
def fitBlock (lm : LMSolver) (S v : List ℚ) : Except String Bundle :=
  match initial_guesses S v with
  | .error e => .error e
  | .ok p0 =>
    match curve_fit lm S v p0 with
    | .error e => .error e
    | .ok params =>
      match linearCore (inv_S S v) (inv_v S v) with
      | .error e => .error e
      | .ok lf =>
        let S_fit := linspace 0 (pymaxD S) 100
        .ok { Vmax_fit := params.1, Km_fit := params.2, S_fit := S_fit,
              v_fit := S_fit.map (fun s => michaelis_menten s params.1 params.2),
              lin := lf }

/-- The analysis block of streamlit_app.py (lines 45-63 and its plot
series): identical to `fitBlock` except that the reciprocal transform of
lines 52-53 is `1 / S`, `1 / v` with NO zero-substrate mask. -/
def fitBlockCSV (lm : LMSolver) (S v : List ℚ) : Except String Bundle :=
  match initial_guesses S v with
  | .error e => .error e
  | .ok p0 =>
    match curve_fit lm S v p0 with
    | .error e => .error e
    | .ok params =>
      match linearCore (S.map fRecipQ) (v.map fRecipQ) with
      | .error e => .error e
      | .ok lf =>
        let S_fit := linspace 0 (pymaxD S) 100
        .ok { Vmax_fit := params.1, Km_fit := params.2, S_fit := S_fit,
              v_fit := S_fit.map (fun s => michaelis_menten s params.1 params.2),
              lin := lf }

/-- The three observable failure channels of MM_kinetics_app.py: the
length-mismatch message of lines 71-72 (carrying both observed counts, as
the f-string does), the numeric-conversion failure of lines 84-85, and
the generic data-fitting failure of lines 114-117. -/
inductive AppError where
  | lengthMismatch (nS nV : ℕ)
  | nonNumeric
  | fitFailure (msg : String)
deriving DecidableEq

/-- Lines 65-117 of MM_kinetics_app.py: tokenize both pasted columns,
check the token counts, convert every token to a number
(`astype(float)` raises on any non-convertible entry; nothing is dropped
or coerced), then run the fitting block. -/
def analyze (parse : String → Option ℚ) (lm : LMSolver)
    (s_string v_string : String) : Except AppError Bundle :=
  let s_vals := tokens s_string
  let v_vals := tokens v_string
  if s_vals.length ≠ v_vals.length then
    .error (.lengthMismatch s_vals.length v_vals.length)
  else
    match seqOption (s_vals.map parse), seqOption (v_vals.map parse) with
    | some S, some v =>
      match fitBlock lm S v with
      | .error msg => .error (.fitFailure msg)
      | .ok b => .ok b
    | _, _ => .error .nonNumeric

/-- The display strings into which the two unit labels are interpolated
(lines 125-131, 152-153, 176-177): metric labels and axis titles.  These
are the only places the unit settings reach. -/
structure Display where
  vmaxNL : String
  kmNL : String
  vmaxLB : String
  kmLB : String
  mmXAxis : String
  mmYAxis : String
  lbXAxis : String
  lbYAxis : String
deriving DecidableEq

/-- Construction of the display strings from the two unit labels. -/
def displayOf (S_units v_units : String) : Display :=
  { vmaxNL := "Vmax (" ++ v_units ++ ")"
    kmNL := "Km (" ++ S_units ++ ")"
    vmaxLB := "Vmax (" ++ v_units ++ ")"
    kmLB := "Km (" ++ S_units ++ ")"
    mmXAxis := "Substrate Concentration [S] (" ++ S_units ++ ")"
    mmYAxis := "Initial Velocity (v) (" ++ v_units ++ ")"
    lbXAxis := "1 / [S]   (1 / " ++ S_units ++ ")"
    lbYAxis := "1 / v   (1 / " ++ v_units ++ ")" }

/-- One full run of the app on its four inputs (two pasted columns, two
unit labels): the computed result bundle paired with the unit-decorated
display strings.  The unit labels enter only `displayOf`. -/
def app (parse : String → Option ℚ) (lm : LMSolver)
    (s_string v_string S_units v_units : String) :
    Except AppError (Bundle × Display) :=
  match analyze parse lm s_string v_string with
  | .error e => .error e
  | .ok b => .ok (b, displayOf S_units v_units)

/-- Trivial solver used to instantiate the abstract optimizer in concrete
witnesses: it returns the initial guess. -/
def trivLM : LMSolver := fun _ _ p0 => p0

/-- Decimal digit of a character, if any. -/
def charDigit (c : Char) : Option ℕ :=
  if 48 ≤ c.toNat ∧ c.toNat ≤ 57 then some (c.toNat - 48) else none

/-- Accumulating decimal reading of a character list. -/
def natOfDigits : List Char → ℕ → Option ℕ
  | [], acc => some acc
  | c :: cs, acc =>
    match charDigit c with
    | none => none
    | some d => natOfDigits cs (acc * 10 + d)

/-- A simple concrete numeric parser (nonempty strings of decimal digits),
used to instantiate the abstract `parse` parameter in witnesses and
counterexamples. -/
def parseNat (s : String) : Option ℚ :=
  match s.toList with
  | [] => none
  | c :: cs => (natOfDigits (c :: cs) 0).map (fun n => (n : ℚ))

deriving instance DecidableEq for Except

/-- Spec-side characterization (section 4.2 of the specification): `m` is
the maximum observed velocity of the column `l`. -/
def IsMaxOf (m : ℚ) (l : List ℚ) : Prop :=
  m ∈ l ∧ ∀ x ∈ l, x ≤ m

/-- Spec-side characterization (section 4.2 of the specification): `d` is
the median of the observations `l` — the middle element of a sorted
rearrangement, or the mean of the two middle elements for even length. -/
def IsMedianOf (d : ℚ) (l : List ℚ) : Prop :=
  ∃ L : List ℚ, l.Perm L ∧ L.Sorted (· ≤ ·) ∧
    (if L.length % 2 = 1 then d = L.getD (L.length / 2) 0
     else d = (L.getD (L.length / 2 - 1) 0 + L.getD (L.length / 2) 0) / 2)

/-! ## Helper lemmas -/

theorem seqOption_length {α : Type} {l : List (Option α)} {l' : List α}
    (h : seqOption l = some l') : l'.length = l.length := by
  induction l generalizing l' with
  | nil => simp [seqOption] at h; simp [← h]
  | cons a rest ih =>
    cases a with
    | none => simp [seqOption] at h
    | some x =>
      simp only [seqOption] at h
      cases hr : seqOption rest with
      | none => rw [hr] at h; simp at h
      | some r =>
        rw [hr] at h
        simp only [Option.map_some'] at h
        cases h
        simp [ih hr]

theorem seqOption_map_some {α β : Type} {l : List α} {f : α → Option β} {g : α → β}
    (h : ∀ a ∈ l, f a = some (g a)) : seqOption (l.map f) = some (l.map g) := by
  induction l with
  | nil => rfl
  | cons a rest ih =>
    have ha := h a (by simp)
    simp only [List.map_cons, ha, seqOption]
    rw [ih (fun x hx => h x (by simp [hx]))]
    rfl

theorem seqOption_eq_none_of_mem {α β : Type} {l : List α} {f : α → Option β} {a : α}
    (ha : a ∈ l) (hf : f a = none) : seqOption (l.map f) = none := by
  induction l with
  | nil => simp at ha
  | cons b rest ih =>
    rcases List.mem_cons.mp ha with h | h
    · subst h; simp [seqOption, hf]
    · simp only [List.map_cons, seqOption]
      cases hb : f b with
      | none => rfl
      | some x => simp [seqOption, ih h]

theorem seqOption_const {α : Type} {l : List (Option α)} {q : α}
    (h : ∀ a ∈ l, a = some q) : seqOption l = some (List.replicate l.length q) := by
  induction l with
  | nil => rfl
  | cons a rest ih =>
    have ha := h a (by simp)
    subst ha
    simp only [seqOption, ih (fun x hx => h x (by simp [hx]))]
    simp [List.replicate]

theorem mem_maskPairs_fst_ne_zero {S v : List ℚ} {p : ℚ × ℚ}
    (h : p ∈ maskPairs S v) : p.1 ≠ 0 := by
  have := List.of_mem_filter h
  simpa using this

theorem seq_inv_S {S v : List ℚ} :
    seqOption (inv_S S v) = some ((maskPairs S v).map (fun p => 1 / p.1)) := by
  apply seqOption_map_some
  intro p hp
  have hne := mem_maskPairs_fst_ne_zero hp
  simp [fRecipQ, hne]

theorem meanOf_const {l : List ℚ} {c : ℚ} (hne : l ≠ []) (h : ∀ x ∈ l, x = c) :
    meanOf l = c := by
  have hsum : l.sum = l.length • c := List.sum_eq_card_nsmul l c h
  have hlen : (l.length : ℚ) ≠ 0 := by
    simp [List.length_eq_zero, hne]
  simp only [meanOf, hsum, nsmul_eq_mul]
  exact mul_div_cancel_left₀ c hlen

theorem ssxmOf_const {l : List ℚ} {c : ℚ} (h : ∀ x ∈ l, x = c) : ssxmOf l = 0 := by
  cases l with
  | nil => rfl
  | cons a rest =>
    apply List.sum_eq_zero
    intro x hx
    rcases List.mem_map.mp hx with ⟨y, hy, hxy⟩
    have hyc := h y hy
    have hm : meanOf (a :: rest) = c := meanOf_const (by simp) h
    rw [← hxy, hyc, hm]
    ring

theorem ssxmOf_short {l : List ℚ} (h : l.length < 2) : ssxmOf l = 0 := by
  match l, h with
  | [], _ => rfl
  | [x], _ =>
    apply List.sum_eq_zero
    intro y hy
    have hm : meanOf [x] = x := by simp [meanOf]
    simp only [List.map_cons, List.map_nil, hm] at hy
    simp at hy
    simp [hy]

theorem linregress_error_of_nil (ys : List (Option ℚ)) :
    linregress [] ys = .error "Inputs must not be empty." := rfl

theorem linregress_error_of_const {xs : List (Option ℚ)} {q : ℚ}
    (h2 : 2 ≤ xs.length) (hall : ∀ a ∈ xs, a = some q) (ys : List (Option ℚ)) :
    linregress xs ys =
      .error "Cannot calculate a linear regression if all x values are identical" := by
  have hlen : ¬ xs.length = 0 := by omega
  have h1 : 1 < xs.length := h2
  have hseq := seqOption_const hall
  have hss : ssxmOf (List.replicate xs.length q) = 0 :=
    ssxmOf_const (fun x hx => List.eq_of_mem_replicate hx)
  simp [linregress, hlen, hseq, hss, h1]

theorem linregress_singleton (q : ℚ) (ys : List (Option ℚ)) :
    linregress [some q] ys = .ok (none, none) := by
  have h0 : ¬ ([some q] : List (Option ℚ)).length = 0 := by simp
  have hseq : seqOption [some q] = some [q] := rfl
  have hss : ssxmOf [q] = 0 := ssxmOf_short (by simp)
  simp [linregress, h0, hseq, hss]

theorem linearCore_error {xs ys : List (Option ℚ)} {e : String}
    (h : linregress xs ys = .error e) : linearCore xs ys = .error e := by
  rw [linearCore, h]

theorem linearCore_ok_inv {xs ys : List (Option ℚ)} {lf : LinFit}
    (h : linearCore xs ys = .ok lf) :
    ∃ r, linregress xs ys = .ok r ∧ lf.slope = r.1 ∧ lf.intercept = r.2 ∧
      lf.Vmax_lb = fRecip r.2 := by
  rw [linearCore] at h
  cases hr : linregress xs ys with
  | error e => rw [hr] at h; simp at h
  | ok r =>
    rw [hr] at h
    refine ⟨r, rfl, ?_⟩
    cases h
    exact ⟨rfl, rfl, rfl⟩

theorem initial_guesses_ok_inv {S v : List ℚ} {p0 : ℚ × ℚ}
    (h : initial_guesses S v = .ok p0) :
    pymax v = .ok p0.1 ∧ p0.2 = npMedian S := by
  rw [initial_guesses] at h
  cases hm : pymax v with
  | error e => rw [hm] at h; simp at h
  | ok m => rw [hm] at h; cases h; exact ⟨rfl, rfl⟩

theorem fitBlock_ok_inv {lm : LMSolver} {S v : List ℚ} {b : Bundle}
    (h : fitBlock lm S v = .ok b) :
    ∃ m, pymax v = .ok m ∧ ¬ S.length < 2 ∧
      linearCore (inv_S S v) (inv_v S v) = .ok b.lin := by
  rw [fitBlock] at h
  split at h
  next e hg => simp at h
  next p0 hg =>
  split at h
  next e hc => simp at h
  next params hc =>
  split at h
  next e hl => simp at h
  next lf hl =>
  obtain ⟨hm, -⟩ := initial_guesses_ok_inv hg
  have h2 : ¬ S.length < 2 := by
    by_contra h2
    rw [curve_fit, if_pos h2] at hc
    simp at hc
  injection h with hb
  subst hb
  exact ⟨p0.1, hm, h2, hl⟩

theorem fitBlock_ok_of (lm : LMSolver) {S v : List ℚ} {m : ℚ} {lf : LinFit}
    (hm : pymax v = .ok m) (h2 : ¬ S.length < 2)
    (hl : linearCore (inv_S S v) (inv_v S v) = .ok lf) :
    ∃ b, fitBlock lm S v = .ok b ∧ b.lin = lf := by
  refine ⟨{ Vmax_fit := (lm S v (m, npMedian S)).1, Km_fit := (lm S v (m, npMedian S)).2,
            S_fit := linspace 0 (pymaxD S) 100,
            v_fit := (linspace 0 (pymaxD S) 100).map
              (fun s => michaelis_menten s (lm S v (m, npMedian S)).1
                (lm S v (m, npMedian S)).2),
            lin := lf }, ?_, rfl⟩
  simp only [fitBlock, initial_guesses, hm, curve_fit, h2, if_false, hl]

theorem linearCore_singleton (q : ℚ) (ys : List (Option ℚ)) :
    linearCore [some q] ys = .ok ⟨none, none, none, none, none, none, none⟩ := by
  rw [linearCore, linregress_singleton]
  rfl

theorem linearCore_mask_nil {S v : List ℚ} (h : maskPairs S v = []) :
    linearCore (inv_S S v) (inv_v S v) = .error "Inputs must not be empty." := by
  have hiS : inv_S S v = [] := by rw [inv_S, h]; rfl
  have hiV : inv_v S v = [] := by rw [inv_v, h]; rfl
  rw [hiS, hiV]
  exact linearCore_error (linregress_error_of_nil [])

theorem fitBlock_error_single (lm : LMSolver) (a c : ℚ) :
    fitBlock lm [a] [c] =
      .error "The number of func parameters=2 must not exceed the number of data points" :=
  rfl

theorem fitBlock_singleton_mask (lm : LMSolver) {S v : List ℚ} {p : ℚ × ℚ}
    (hv : v ≠ []) (h2 : ¬ S.length < 2) (hT : maskPairs S v = [p]) :
    ∃ b, fitBlock lm S v = .ok b ∧
      b.lin = ⟨none, none, none, none, none, none, none⟩ := by
  have hp : p ∈ maskPairs S v := by rw [hT]; simp
  have hne := mem_maskPairs_fst_ne_zero hp
  have hx : inv_S S v = [some (1 / p.1)] := by
    rw [inv_S, hT]
    simp [fRecipQ, hne]
  have hlc : linearCore (inv_S S v) (inv_v S v)
      = .ok ⟨none, none, none, none, none, none, none⟩ := by
    rw [hx]
    exact linearCore_singleton (1 / p.1) _
  obtain ⟨m, hm⟩ : ∃ m, pymax v = .ok m := by
    cases v with
    | nil => simp at hv
    | cons a as => exact ⟨_, rfl⟩
  exact fitBlock_ok_of lm hm h2 hlc

theorem foldl_max_mem : ∀ (xs : List ℚ) (x : ℚ), xs.foldl max x ∈ x :: xs := by
  intro xs
  induction xs with
  | nil => intro x; simp
  | cons a as ih =>
    intro x
    rw [List.foldl_cons]
    rcases List.mem_cons.mp (ih (max x a)) with h | h
    · rcases max_choice x a with hm | hm
      · exact List.mem_cons.mpr (Or.inl (h.trans hm))
      · exact List.mem_cons.mpr
          (Or.inr (List.mem_cons.mpr (Or.inl (h.trans hm))))
    · exact List.mem_cons.mpr (Or.inr (List.mem_cons.mpr (Or.inr h)))

theorem le_foldl_max : ∀ (xs : List ℚ) (x y : ℚ), y ∈ x :: xs → y ≤ xs.foldl max x := by
  intro xs
  induction xs with
  | nil =>
    intro x y hy
    simp at hy
    simp [hy]
  | cons a as ih =>
    intro x y hy
    rw [List.foldl_cons]
    rcases List.mem_cons.mp hy with h | h
    · rw [h]
      exact le_trans (le_max_left x a) (ih (max x a) (max x a) (by simp))
    · rcases List.mem_cons.mp h with h' | h'
      · rw [h']
        exact le_trans (le_max_right x a) (ih (max x a) (max x a) (by simp))
      · exact ih (max x a) y (by simp [h'])

theorem splitWs_ne_nil (cs : List Char) : splitWs cs ≠ [] := by
  induction cs with
  | nil => simp [splitWs]
  | cons c cs ih =>
    rw [splitWs]
    split
    · simp
    · cases h : splitWs cs with
      | nil => simp
      | cons t ts => simp

theorem splitWs_append (a b : List Char) :
    splitWs (a ++ '\n' :: b) = splitWs a ++ splitWs b := by
  induction a with
  | nil => rfl
  | cons c a ih =>
    by_cases hw : c.isWhitespace
    · have h1 : splitWs (c :: (a ++ '\n' :: b)) = [] :: splitWs (a ++ '\n' :: b) := by
        rw [splitWs, if_pos hw]
      have h2 : splitWs (c :: a) = [] :: splitWs a := by
        rw [splitWs, if_pos hw]
      rw [List.cons_append, h1, ih, h2]
      rfl
    · have h1 : splitWs (c :: (a ++ '\n' :: b)) =
          match splitWs (a ++ '\n' :: b) with
          | [] => [[c]]
          | t :: ts => (c :: t) :: ts := by
        rw [splitWs, if_neg hw]
      have h2 : splitWs (c :: a) =
          match splitWs a with
          | [] => [[c]]
          | t :: ts => (c :: t) :: ts := by
        rw [splitWs, if_neg hw]
      rw [List.cons_append, h1, ih, h2]
      cases h : splitWs a with
      | nil => exact absurd h (splitWs_ne_nil a)
      | cons t ts => rfl

theorem tokensL_append (a b : List Char) :
    tokensL (a ++ '\n' :: b) = tokensL a ++ tokensL b := by
  rw [tokensL, tokensL, tokensL, splitWs_append, List.map_append, List.filter_append]

theorem tokensL_cons_newline (cs : List Char) : tokensL ('\n' :: cs) = tokensL cs := by
  rw [tokensL, splitWs, if_pos (by decide)]
  rw [List.map_cons, List.filter_cons]
  have h0 : (decide (String.mk [] ≠ "")) = false := by decide
  rw [h0]
  rfl

theorem analyze_mismatch_aux (parse : String → Option ℚ) (lm : LMSolver)
    (s v : String) (h : (tokens s).length ≠ (tokens v).length) :
    analyze parse lm s v =
      .error (.lengthMismatch (tokens s).length (tokens v).length) := by
  simp only [analyze]
  rw [if_pos h]

/-! ## Claim theorems -/

/-- C2: for every pair of pasted columns whose token sequences differ in
length, the analysis fails with the length-mismatch error carrying both
observed lengths — for every parser and every solver, so no conversion or
fitting influences the outcome. -/
theorem length_mismatch_reported (parse : String → Option ℚ) (lm : LMSolver)
    (s v : String) (h : (tokens s).length ≠ (tokens v).length) :
    analyze parse lm s v =
      .error (.lengthMismatch (tokens s).length (tokens v).length) :=
  analyze_mismatch_aux parse lm s v h

/-- Witness for C2: 3 substrate tokens against 2 velocity tokens. -/
theorem length_mismatch_reported_witness :
    analyze parseNat trivLM "1 2 3" "4 5" = .error (.lengthMismatch 3 2) :=
  length_mismatch_reported parseNat trivLM "1 2 3" "4 5" (by decide)

/-- C3 counterexample: the input S-column "abc" (one unparseable token)
paired with the two-token V-column "1 2" fails with the length-mismatch
error, not with the numeric-conversion error, because the length check of
line 71 runs before `astype(float)`; so an unparseable entry does not
always produce the conversion failure the claim states. -/
theorem nonnumeric_claim_cex :
    parseNat "abc" = none ∧
      analyze parseNat trivLM "abc" "1 2" = .error (.lengthMismatch 1 2) := by
  exact ⟨by decide, by decide⟩

/-- C3 (amended): for equal-length token columns, any entry that fails
numeric conversion makes the analysis fail with the conversion error —
nothing is dropped or coerced; when the token counts also differ, the
length-mismatch error takes precedence instead. -/
theorem nonnumeric_conversion_fails (parse : String → Option ℚ) (lm : LMSolver)
    (s v : String) (hlen : (tokens s).length = (tokens v).length)
    (hbad : (∃ t ∈ tokens s, parse t = none) ∨ (∃ t ∈ tokens v, parse t = none)) :
    analyze parse lm s v = .error .nonNumeric := by
  simp only [analyze]
  rw [if_neg (by simp [hlen])]
  rcases hbad with ⟨t, ht, hp⟩ | ⟨t, ht, hp⟩
  · rw [seqOption_eq_none_of_mem ht hp]
  · rw [seqOption_eq_none_of_mem ht hp]
    cases hs : seqOption ((tokens s).map parse) with
    | none => rfl
    | some L => rfl

/-- Witness for C3 (amended): equal-length columns with the unparseable
token "abc". -/
theorem nonnumeric_conversion_fails_witness :
    analyze parseNat trivLM "1 2 abc" "3 4 5" = .error .nonNumeric :=
  nonnumeric_conversion_fails parseNat trivLM "1 2 abc" "3 4 5" (by decide)
    (Or.inl ⟨"abc", by decide, by decide⟩)

/-- C7: for every regression outcome with nonzero intercept, the linear
back-transform computes exactly Vmax_lb = 1/intercept,
Km_lb = slope * Vmax_lb, and (whenever that Km_lb is a nonzero divisor)
x_intercept_val = -1/Km_lb. -/
theorem back_transform_formulas (sl ic : ℚ) (h : ic ≠ 0) :
    (backTransform (some sl) (some ic)).1 = some (1 / ic) ∧
    (backTransform (some sl) (some ic)).2.1 = some (sl * (1 / ic)) ∧
    ∀ k : ℚ, (backTransform (some sl) (some ic)).2.1 = some k → k ≠ 0 →
      (backTransform (some sl) (some ic)).2.2 = some (-(1 / k)) := by
  refine ⟨?_, ?_, ?_⟩
  · show fRecip (some ic) = some (1 / ic)
    simp [fRecip, fRecipQ, h]
  · show fMul (some sl) (fRecip (some ic)) = some (sl * (1 / ic))
    simp [fRecip, fRecipQ, fMul, h]
  · intro k hk hkne
    have h1 : fMul (some sl) (fRecip (some ic)) = some k := hk
    show fNeg (fRecip (fMul (some sl) (fRecip (some ic)))) = some (-(1 / k))
    rw [h1]
    simp [fRecip, fRecipQ, fNeg, hkne]

/-- Witness for C7 at slope 2, intercept 3. -/
theorem back_transform_formulas_witness :
    (backTransform (some 2) (some 3)).1 = some (1 / 3) ∧
    (backTransform (some 2) (some 3)).2.1 = some (2 * (1 / 3)) ∧
    (backTransform (some 2) (some 3)).2.2 = some (-(1 / (2 * (1 / 3)))) := by
  obtain ⟨h1, h2, h3⟩ := back_transform_formulas 2 3 (by norm_num)
  exact ⟨h1, h2, h3 (2 * (1 / 3)) h2 (by norm_num)⟩

/-- C8: the computed result bundle of a full app run is identical for every
pair of unit-label settings; the labels reach only the display strings. -/
theorem units_noninterference (parse : String → Option ℚ) (lm : LMSolver)
    (s v u₁ w₁ u₂ w₂ : String) :
    (app parse lm s v u₁ w₁).map Prod.fst = (app parse lm s v u₂ w₂).map Prod.fst := by
  rw [app, app]
  cases analyze parse lm s v <;> rfl

/-- C9: the analysis is a pure, deterministic function of the pasted
observation columns: two runs on equal inputs produce identical outputs
(the embedding threads no state between runs, mirroring the script, which
recomputes everything from the widget inputs). -/
theorem analysis_deterministic (parse : String → Option ℚ) (lm : LMSolver)
    (s v S_units v_units s' v' : String) (hs : s = s') (hv : v = v') :
    app parse lm s v S_units v_units = app parse lm s' v' S_units v_units := by
  rw [hs, hv]

/-- Witness for C9 at the concrete reference-style input. -/
theorem analysis_deterministic_witness :
    app parseNat trivLM "1 2" "3 4" "mM" "uM/min" =
      app parseNat trivLM "1 2" "3 4" "mM" "uM/min" :=
  analysis_deterministic parseNat trivLM "1 2" "3 4" "mM" "uM/min" "1 2" "3 4" rfl rfl

/-- C4 counterexample: at S = [1, 2], v = [1/2, 1] the least-squares
intercept over the reciprocal data is exactly 0, yet the analysis raises
no error of any kind: it returns a result bundle in which the
back-transform value 1/intercept is the silently propagated nonfinite
float (modelled as none) — there is no distinct degenerate-transform
failure in the code. -/
theorem degenerate_transform_cex :
    (fitBlock trivLM [1, 2] [1/2, 1]).map (fun b => (b.lin.intercept, b.lin.Vmax_lb))
      = .ok (some 0, none) := by
  norm_num [fitBlock, initial_guesses, pymax, curve_fit, maskPairs, inv_S, inv_v,
    linearCore, linregress, seqOption, ssxmOf, meanOf, fRecipQ, fRecip, fMul, fNeg,
    backTransform, fMaxOf, Except.map]

/-- C4 (amended): the code raises no distinct DegenerateTransformError.
When the regression intercept is exactly 0 the analysis succeeds and the
nonfinite 1/0 propagates silently into the bundle as Vmax_lb.  When NO
usable point remains after the zero-substrate filter the fitting block
fails, but through the same generic data-fitting error channel used for
every fitting exception; and when exactly ONE usable point remains (in an
observation set of at least 2 rows) nothing fails at all — linregress
completes with nan slope and intercept, whose back-transform propagates
silently into the bundle. -/
theorem degenerate_transform_behavior :
    (∀ (lm : LMSolver) (S v : List ℚ),
        (fitBlock lm S v).map (fun b => b.lin.intercept) = .ok (some 0) →
        (fitBlock lm S v).map (fun b => b.lin.Vmax_lb) = .ok none) ∧
    (∀ (lm : LMSolver) (S v : List ℚ), S.length = v.length →
        maskPairs S v = [] → ∃ e, fitBlock lm S v = .error e) ∧
    (∀ (lm : LMSolver) (S v : List ℚ) (p : ℚ × ℚ), S.length = v.length →
        2 ≤ S.length → maskPairs S v = [p] →
        ∃ b, fitBlock lm S v = .ok b ∧ b.lin.Vmax_lb = none ∧
          b.lin.slope = none ∧ b.lin.intercept = none) := by
  refine ⟨?_, ?_, ?_⟩
  · intro lm S v h
    cases hfb : fitBlock lm S v with
    | error e => rw [hfb] at h; simp [Except.map] at h
    | ok b =>
      rw [hfb] at h
      simp only [Except.map, Except.ok.injEq] at h
      obtain ⟨m, hm, h2, hl⟩ := fitBlock_ok_inv hfb
      obtain ⟨r, hr, hsl, hic, hvm⟩ := linearCore_ok_inv hl
      have r2eq : r.2 = some 0 := hic.symm.trans h
      simp only [Except.map, Except.ok.injEq]
      rw [hvm, r2eq]
      simp [fRecip, fRecipQ]
  · intro lm S v hlen hnil
    cases hfb : fitBlock lm S v with
    | error e => exact ⟨e, rfl⟩
    | ok b =>
      exfalso
      obtain ⟨m, hm, h2, hl⟩ := fitBlock_ok_inv hfb
      rw [linearCore_mask_nil hnil] at hl
      simp at hl
  · intro lm S v p hlen h2 hT
    have hv : v ≠ [] := by
      intro hveq
      rw [hveq] at hlen
      simp only [List.length_nil] at hlen
      omega
    obtain ⟨b, hb, hlin⟩ := fitBlock_singleton_mask lm hv (by omega) hT
    exact ⟨b, hb, by rw [hlin], by rw [hlin], by rw [hlin]⟩

/-- Witness for C4 (amended): the intercept-zero input silently carries a
nonfinite Vmax_lb; the input whose rows are all zero-substrate errors out
through the generic channel; the input with exactly one usable row
completes with nan linear results and no failure. -/
theorem degenerate_transform_behavior_witness :
    (fitBlock trivLM [1, 2] [1/2, 1]).map (fun b => b.lin.Vmax_lb) = .ok none ∧
    (∃ e, fitBlock trivLM [0, 0] [1, 2] = .error e) ∧
    ∃ b, fitBlock trivLM [0, 5] [1, 2] = .ok b ∧ b.lin.Vmax_lb = none ∧
      b.lin.slope = none ∧ b.lin.intercept = none := by
  refine ⟨?_, ?_, ?_⟩
  · apply degenerate_transform_behavior.1 trivLM [1, 2] [1/2, 1]
    norm_num [fitBlock, initial_guesses, pymax, curve_fit, maskPairs, inv_S, inv_v,
      linearCore, linregress, seqOption, ssxmOf, meanOf, fRecipQ, fRecip, fMul, fNeg,
      backTransform, fMaxOf, Except.map]
  · exact degenerate_transform_behavior.2.1 trivLM [0, 0] [1, 2] rfl
      (by norm_num [maskPairs])
  · exact degenerate_transform_behavior.2.2 trivLM [0, 5] [1, 2] (5, 2) rfl
      (by norm_num) (by norm_num [maskPairs])

/-- C5: on degenerate data — fewer than 2 points, or all substrate values
identical — the analysis fails through the fitting-error channel rather
than returning parameter estimates, for every solver function. -/
theorem degenerate_data_fails (lm : LMSolver) (S v : List ℚ)
    (hlen : S.length = v.length)
    (hdeg : S.length < 2 ∨ ∀ x ∈ S, ∀ y ∈ S, x = y) :
    ∃ e, fitBlock lm S v = .error e := by
  cases hfb : fitBlock lm S v with
  | error e => exact ⟨e, rfl⟩
  | ok b =>
    exfalso
    obtain ⟨m, hm, h2, hl⟩ := fitBlock_ok_inv hfb
    rcases hdeg with hS | hall
    · exact h2 hS
    · have h2' : 2 ≤ S.length := by omega
      obtain ⟨c, rest, rfl⟩ : ∃ c rest, S = c :: rest := by
        cases S with
        | nil => simp at h2'
        | cons c rest => exact ⟨c, rest, rfl⟩
      have hcS : c ∈ c :: rest := by simp
      by_cases hc : c = 0
      · have hmask : maskPairs (c :: rest) v = [] := by
          rw [maskPairs]
          apply List.filter_eq_nil_iff.mpr
          intro p hp
          obtain ⟨a, b2⟩ := p
          have ha : a ∈ c :: rest := (List.of_mem_zip hp).1
          have hac : a = c := hall a ha c hcS
          simp [hac, hc]
        have he := linearCore_mask_nil hmask
        rw [he] at hl
        simp at hl
      · have hallz : ∀ p ∈ (c :: rest).zip v, (p : ℚ × ℚ).1 = c := by
          intro p hp
          obtain ⟨a, b2⟩ := p
          exact hall a (List.of_mem_zip hp).1 c hcS
        have hmask : maskPairs (c :: rest) v = (c :: rest).zip v := by
          rw [maskPairs]
          apply List.filter_eq_self.mpr
          intro p hp
          simp [hallz p hp, hc]
        have hxlen : 2 ≤ (inv_S (c :: rest) v).length := by
          rw [inv_S, hmask, List.length_map, List.length_zip]
          have hvlen : ((c :: rest).length) = v.length := hlen
          rw [← hvlen, min_self]
          exact h2'
        have hxs : ∀ a ∈ inv_S (c :: rest) v, a = some (1 / c) := by
          intro a ha
          rw [inv_S, hmask] at ha
          rcases List.mem_map.mp ha with ⟨p, hp, hpa⟩
          rw [← hpa]
          simp [fRecipQ, hallz p hp, hc]
        have hr := linregress_error_of_const hxlen hxs (inv_v (c :: rest) v)
        have hlc := linearCore_error hr
        rw [hlc] at hl
        simp at hl

/-- Witness for C5: two identical substrate values. -/
theorem degenerate_data_fails_witness :
    ∃ e, fitBlock trivLM [3, 3] [1, 2] = .error e :=
  degenerate_data_fails trivLM [3, 3] [1, 2] (by rfl)
    (Or.inr (by
      intro x hx y hy
      simp at hx hy
      rw [hx, hy]))

/-- C6: for every observation set with a nonempty velocity column, the
nonlinear fit is seeded with exactly the pair (maximum observed velocity,
median observed substrate concentration), in that order. -/
theorem initial_guess_max_median (S v : List ℚ) (hv : v ≠ []) :
    ∃ m d, initial_guesses S v = .ok (m, d) ∧ IsMaxOf m v ∧ IsMedianOf d S := by
  obtain ⟨a, as, rfl⟩ : ∃ a as, v = a :: as := by
    cases v with
    | nil => simp at hv
    | cons a as => exact ⟨a, as, rfl⟩
  refine ⟨as.foldl max a, npMedian S, rfl, ?_, ?_⟩
  · exact ⟨foldl_max_mem as a, fun x hx => le_foldl_max as a x hx⟩
  · refine ⟨S.insertionSort (· ≤ ·), (List.perm_insertionSort _ S).symm,
      List.sorted_insertionSort _ S, ?_⟩
    by_cases hpar : (S.insertionSort (· ≤ ·)).length % 2 = 1
    · rw [if_pos hpar]
      simp only [npMedian]
      rw [if_pos hpar]
    · rw [if_neg hpar]
      simp only [npMedian]
      rw [if_neg hpar]

/-- Witness for C6 at a concrete observation set. -/
theorem initial_guess_max_median_witness :
    ∃ m d, initial_guesses [1, 2, 4] [3, 7, 5] = .ok (m, d) ∧
      IsMaxOf m [3, 7, 5] ∧ IsMedianOf d [1, 2, 4] :=
  initial_guess_max_median [1, 2, 4] [3, 7, 5] (by simp)

/-- C10: in the paste-columns path the length check precedes numeric
conversion — mismatched token counts are reported as a length mismatch
with both counts even when a token is unparseable; tokens come from
whitespace splitting with empty tokens discarded, so an extra blank line
between values changes nothing and no empty token ever appears. -/
theorem paste_tokenization_precedence :
    (∀ (parse : String → Option ℚ) (lm : LMSolver) (s v : String),
        (tokens s).length ≠ (tokens v).length →
        (∃ t ∈ tokens s ++ tokens v, parse t = none) →
        analyze parse lm s v =
          .error (.lengthMismatch (tokens s).length (tokens v).length)) ∧
    (∀ a b : String, tokens (a ++ "\n\n" ++ b) = tokens (a ++ "\n" ++ b)) ∧
    (∀ s : String, "" ∉ tokens s) := by
  refine ⟨?_, ?_, ?_⟩
  · intro parse lm s v h hbad
    exact analyze_mismatch_aux parse lm s v h
  · intro a b
    show tokensL (a ++ "\n\n" ++ b).toList = tokensL (a ++ "\n" ++ b).toList
    have hd2 : ("\n\n" : String).data = ['\n', '\n'] := rfl
    have hd1 : ("\n" : String).data = ['\n'] := rfl
    have h1 : (a ++ "\n\n" ++ b).toList = a.toList ++ '\n' :: ('\n' :: b.toList) := by
      simp [String.toList, String.data_append, hd2]
    have h2 : (a ++ "\n" ++ b).toList = a.toList ++ '\n' :: b.toList := by
      simp [String.toList, String.data_append, hd1]
    rw [h1, h2, tokensL_append, tokensL_append, tokensL_cons_newline]
  · intro s
    rw [tokens, tokensL]
    intro hmem
    have := List.of_mem_filter hmem
    simp at this

/-- Witness for C10: length-mismatch precedence over the unparseable token
"abc", blank-line invariance, and no empty token, at concrete inputs. -/
theorem paste_tokenization_precedence_witness :
    analyze parseNat trivLM "abc" "1 2" = .error (.lengthMismatch 1 2) ∧
    tokens ("1 2" ++ "\n\n" ++ "3") = tokens ("1 2" ++ "\n" ++ "3") ∧
    "" ∉ tokens "1 2 3" := by
  refine ⟨?_, paste_tokenization_precedence.2.1 "1 2" "3",
    paste_tokenization_precedence.2.2 "1 2 3"⟩
  exact paste_tokenization_precedence.1 parseNat trivLM "abc" "1 2" (by decide)
    ⟨"abc", by decide, by decide⟩

/-- C1 counterexample: the CSV app (streamlit_app.py) performs NO
zero-substrate exclusion before the reciprocal transform: on the set with
a zero-substrate row among three the regression slope is the nonfinite
product of the 1/0 entry, while the same set with that row removed yields
a finite slope — the two runs do not produce the same linear fit, so the
claim fails for this estimator. -/
theorem zero_filter_claim_cex :
    (fitBlockCSV trivLM [0, 1, 2] [5, 10, 15]).map (fun b => b.lin.slope.isNone) ≠
      (fitBlockCSV trivLM [1, 2] [10, 15]).map (fun b => b.lin.slope.isNone) := by
  have h1 : (fitBlockCSV trivLM [0, 1, 2] [5, 10, 15]).map (fun b => b.lin.slope.isNone)
      = .ok true := by
    norm_num [fitBlockCSV, initial_guesses, pymax, curve_fit, linearCore, linregress,
      seqOption, ssxmOf, meanOf, fRecipQ, fRecip, fMul, fNeg, backTransform, fMaxOf,
      Except.map]
  have h2 : (fitBlockCSV trivLM [1, 2] [10, 15]).map (fun b => b.lin.slope.isNone)
      = .ok false := by
    norm_num [fitBlockCSV, initial_guesses, pymax, curve_fit, linearCore, linregress,
      seqOption, ssxmOf, meanOf, fRecipQ, fRecip, fMul, fNeg, backTransform, fMaxOf,
      Except.map]
  rw [h1, h2]
  simp

/-- C1 (amended): only the paste-columns pipeline (MM_kinetics_app.py)
excludes rows with S = 0 — by strict equality, no tolerance — before the
reciprocal regression.  When at least 2 rows survive the filter, every
successful analysis yields exactly the linear fit of the
zero-rows-removed observation set (slope, intercept, Vmax_lb, Km_lb,
x_intercept_val and the fitted-line series all agree).  When exactly one
row survives, among at least 2 rows, the two runs diverge: the full run
completes with an all-nonfinite (nan) linear fit while the
zero-rows-removed run fails in curve_fit.  The CSV pipeline applies no
filter at all. -/
theorem zero_filter_amended :
    (∀ (lm : LMSolver) (S v : List ℚ) (b : Bundle),
        S.length = v.length → 2 ≤ (maskPairs S v).length →
        fitBlock lm S v = .ok b →
        ∃ b' : Bundle,
          fitBlock lm ((maskPairs S v).map Prod.fst) ((maskPairs S v).map Prod.snd)
            = .ok b' ∧ b'.lin = b.lin) ∧
    (∀ (lm : LMSolver) (S v : List ℚ) (p : ℚ × ℚ),
        S.length = v.length → 2 ≤ S.length → maskPairs S v = [p] →
        (∃ b, fitBlock lm S v = .ok b ∧
            b.lin = ⟨none, none, none, none, none, none, none⟩) ∧
        ∃ e, fitBlock lm ((maskPairs S v).map Prod.fst) ((maskPairs S v).map Prod.snd)
          = .error e) := by
  constructor
  · intro lm S v b hlen hT2 hok
    obtain ⟨m, hm, h2, hl⟩ := fitBlock_ok_inv hok
    have hzip : ((maskPairs S v).map Prod.fst).zip ((maskPairs S v).map Prod.snd)
        = maskPairs S v := by
      have hu := List.unzip_eq_map (maskPairs S v)
      have hz := List.zip_unzip (maskPairs S v)
      rw [hu] at hz
      exact hz
    have hmask2 : maskPairs ((maskPairs S v).map Prod.fst) ((maskPairs S v).map Prod.snd)
        = maskPairs S v := by
      rw [maskPairs, hzip]
      apply List.filter_eq_self.mpr
      intro q hq
      have hq' : q ∈ List.filter (fun r => decide (r.1 ≠ 0)) (S.zip v) := by
        rw [maskPairs] at hq; exact hq
      exact @List.of_mem_filter _ (fun r => decide (r.1 ≠ 0)) q _ hq'
    have hl' : linearCore
        (inv_S ((maskPairs S v).map Prod.fst) ((maskPairs S v).map Prod.snd))
        (inv_v ((maskPairs S v).map Prod.fst) ((maskPairs S v).map Prod.snd))
        = .ok b.lin := by
      rw [inv_S, hmask2, inv_v, hmask2]
      exact hl
    obtain ⟨m', hm'⟩ : ∃ m', pymax ((maskPairs S v).map Prod.snd) = .ok m' := by
      cases hT : maskPairs S v with
      | nil => rw [hT] at hT2; simp at hT2
      | cons p ps => exact ⟨_, rfl⟩
    have h2' : ¬ ((maskPairs S v).map Prod.fst).length < 2 := by
      rw [List.length_map]; omega
    exact fitBlock_ok_of lm hm' h2' hl'
  · intro lm S v p hlen h2 hT
    constructor
    · have hv : v ≠ [] := by
        intro hveq
        rw [hveq] at hlen
        simp only [List.length_nil] at hlen
        omega
      exact fitBlock_singleton_mask lm hv (by omega) hT
    · rw [hT]
      exact ⟨_, fitBlock_error_single lm p.1 p.2⟩

/-- Witness for C1 (amended): with one zero-substrate row among three and
two surviving rows, the full run and the masked-columns run succeed with
identical linear fits; with one zero row and one surviving row, the full
run completes with nan linear results while the masked run errors in the
nonlinear fit. -/
theorem zero_filter_amended_witness :
    (∃ b b' : Bundle,
        fitBlock trivLM [0, 1, 2] [5, 10, 15] = .ok b ∧
        fitBlock trivLM ((maskPairs [0, 1, 2] [5, 10, 15]).map Prod.fst)
          ((maskPairs [0, 1, 2] [5, 10, 15]).map Prod.snd) = .ok b' ∧
        b'.lin = b.lin) ∧
    ((∃ b, fitBlock trivLM [0, 5] [1, 2] = .ok b ∧
        b.lin = ⟨none, none, none, none, none, none, none⟩) ∧
      ∃ e, fitBlock trivLM ((maskPairs [0, 5] [1, 2]).map Prod.fst)
        ((maskPairs [0, 5] [1, 2]).map Prod.snd) = .error e) := by
  constructor
  · have hok : (fitBlock trivLM [0, 1, 2] [5, 10, 15]).map (fun _ => true)
        = .ok true := by
      norm_num [fitBlock, initial_guesses, pymax, curve_fit, maskPairs, inv_S, inv_v,
        linearCore, linregress, seqOption, ssxmOf, meanOf, fRecipQ, fRecip, fMul, fNeg,
        backTransform, fMaxOf, Except.map]
    cases hfb : fitBlock trivLM [0, 1, 2] [5, 10, 15] with
    | error e => rw [hfb] at hok; simp [Except.map] at hok
    | ok b =>
      obtain ⟨b', h1, h2⟩ := zero_filter_amended.1 trivLM [0, 1, 2] [5, 10, 15] b rfl
        (by norm_num [maskPairs]) hfb
      exact ⟨b, b', rfl, h1, h2⟩
  · exact zero_filter_amended.2 trivLM [0, 5] [1, 2] (5, 2) rfl (by norm_num)
      (by norm_num [maskPairs])
